import Mathlib

/-!
Verification of the Staticman entry-processing pipeline (`lib/Staticman.js`).

The JavaScript source is shallowly embedded: field mappings (JS objects of
scalar values) become association lists, in-place mutation becomes explicit
state passing, promise rejection becomes `Except`/`Option` error results, and
external collaborators (spam classifier, GitHub gateway, md5, slugify,
js-yaml) become parameters of the pipeline environment.
-/

namespace Staticman

/-- Scalar value of a submitted field: JS strings, numbers and booleans.
A missing key (`undefined`) is modelled as absence from the association
list, i.e. an `Option JValue` of `none` at lookup sites. -/
inductive JValue where
  | str (s : String)
  | num (n : Int)
  | bool (b : Bool)
deriving DecidableEq, Repr

/-- A JS object of scalar fields, e.g. `this.fields`: ordered key/value list.
JS objects have unique keys; hypotheses state this where a theorem needs it. -/
abbrev Fields := List (String × JValue)

/-- Caller-supplied options (`this.options`): query/body parameters, strings. -/
abbrev OptMap := List (String × String)

/-- Lookup `fields[name]`: `none` models JS `undefined`. -/
def lookupField (fields : Fields) (name : String) : Option JValue :=
  (fields.find? (fun p => p.1 = name)).map Prod.snd

/-- Lookup `options[name]`. -/
def optGet (opts : OptMap) (name : String) : Option String :=
  (opts.find? (fun p => p.1 = name)).map Prod.snd

/-- JS truthiness of a field value (`undefined`, `''`, `0`, `false` are falsy). -/
def jsTruthy : Option JValue → Bool
  | none => false
  | some (.str s) => !(s == "")
  | some (.num n) => !(n == 0)
  | some (.bool b) => b

/-- JS truthiness of an option value (a string: empty string is falsy). -/
def optTruthy (opts : OptMap) (name : String) : Bool :=
  match optGet opts name with
  | none => false
  | some s => !(s == "")

/-- JS string coercion of a scalar, as used by template literals and
`String.prototype.replace`. -/
def jvToString : JValue → String
  | .str s => s
  | .num n => toString n
  | .bool b => if b then "true" else "false"

/-- JS `String.prototype.trim`: strip leading and trailing whitespace.
Modelled over the ASCII whitespace class `Char.isWhitespace`, which covers
the whitespace appearing in submissions here. -/
def jsTrim (s : String) : String :=
  String.mk (((s.data.dropWhile Char.isWhitespace).reverse.dropWhile Char.isWhitespace).reverse)

/-- JS `String.prototype.toLowerCase` over the ASCII range, as applied to
the configured `format` value and parsed hostnames. -/
def lowerStr (s : String) : String :=
  String.mk (s.data.map Char.toLower)

/-- JS `subject.replace(new RegExp(escapedMatch, 'g'), newText)` where the
pattern is regex-escaped, hence a literal string: replace every
non-overlapping occurrence, scanning left to right and resuming after each
replacement. Fueled structural recursion; every step consumes at least one
subject character (the patterns used are non-empty), so fuel
`subject.length` is enough. -/
def replaceAllAux (pattern repl : List Char) : Nat → List Char → List Char
  | 0, l => l
  | _ + 1, [] => []
  | fuel + 1, c :: cs =>
    if pattern.isPrefixOf (c :: cs) && !pattern.isEmpty then
      repl ++ replaceAllAux pattern repl fuel ((c :: cs).drop pattern.length)
    else
      c :: replaceAllAux pattern repl fuel cs

/-- JS global literal string replacement (see `replaceAllAux`). -/
def replaceAll (s pattern repl : String) : String :=
  String.mk (replaceAllAux pattern.data repl.data s.data.length s.data)

/-- Assignment `data[field] = v`: overwrite the existing key in place, else append. -/
def setField (fields : Fields) (name : String) (v : JValue) : Fields :=
  if (fields.find? (fun p => p.1 = name)).isSome then
    fields.map (fun p => if p.1 = name then (p.1, v) else p)
  else
    fields ++ [(name, v)]

/-- One entry of the structured error list produced by `_validateFields`:
a `code` plus the offending field names (`data`). -/
structure ErrorEntry where
  code : String
  data : List String
deriving DecidableEq, Repr

/-- The `typeof fields[field] === 'string'` guard of the trim loop: trim a
string value, leave other scalars untouched. -/
def trimValue : JValue → JValue
  | .str s => .str (jsTrim s)
  | v => v

/-- The trim loop of `_validateFields`: every string-valued field is trimmed
in place (`fields[field] = fields[field].trim()`); non-strings untouched. -/
def trimFields (fields : Fields) : Fields :=
  fields.map (fun p => (p.1, trimValue p.2))

/-- The invalid-field check of `_validateFields`: a field is recorded invalid
when `allowedFields.indexOf(field) === -1` and `fields[field] !== ''`.
The check reads the value before the trim of the same loop iteration, so it
sees the untrimmed value. -/
def invalidFieldsOf (allowed : List String) (fields : Fields) : List String :=
  (fields.filter (fun p => !(allowed.contains p.1) && !(p.2 == JValue.str ""))).map Prod.fst

/-- The required-field check of `_validateFields`, run after the trim loop:
a required name is missing when `fields[field] === undefined` or
`fields[field] === ''`. -/
def missingRequiredOf (required : List String) (fields : Fields) : List String :=
  required.filter (fun f =>
    match lookupField fields f with
    | none => true
    | some v => v == JValue.str "")

/-- Embedding of `Staticman.prototype._validateFields`. Returns the error list (`none`
models the JS `null` success) together with the mapping after the in-place
trimming. -/
def validateFields (allowed required : List String) (fields : Fields) :
    Option (List ErrorEntry) × Fields :=
  let invalid := invalidFieldsOf allowed fields
  let trimmed := trimFields fields
  let missing := missingRequiredOf required trimmed
  let errors :=
    (if missing.isEmpty then [] else [ErrorEntry.mk "MISSING_REQUIRED_FIELDS" missing])
      ++ (if invalid.isEmpty then [] else [ErrorEntry.mk "INVALID_FIELDS" invalid])
  (if errors.isEmpty then none else some errors, trimmed)

/-- Context object passed to `_resolvePlaceholders` (`baseObject`): the
`{fields, options}` record built at each call site. -/
structure Ctx where
  fields : Fields
  options : OptMap
deriving Repr

/-- Model of `objectPath.get(baseObject, property)` for a `{fields, options}` context
of flat scalar mappings: a dotted path whose head selects the sub-mapping
and whose single remaining component indexes it. Paths of any other shape
address no scalar in this flat model and yield `undefined` (the sub-mapping
objects themselves are not scalar values and cannot be spliced into a
string-valued placeholder slot). -/
def ctxGet (ctx : Ctx) (property : String) : Option JValue :=
  match (List.splitOnP (fun c => c = '.') property.data).map String.mk with
  | ["fields", k] => lookupField ctx.fields k
  | ["options", k] => (optGet ctx.options k).map JValue.str
  | _ => none

/-- Composition `objectPath.get(baseObject, property) || ''` with the string coercion of
`String.prototype.replace`: falsy values (undefined, `''`, `0`, `false`)
give the empty string. -/
def lookupOrEmpty (ctx : Ctx) (property : String) : String :=
  match ctxGet ctx property with
  | some v => if jsTruthy (some v) then jvToString v else ""
  | none => ""

/-- The `switch (property)` of `_resolvePlaceholders`: literal `@timestamp`
gives the current epoch milliseconds, literal `@id` the unique entry
identifier, anything else the dotted-path lookup defaulting to `''`. -/
def resolveToken (now : Nat) (uid : String) (ctx : Ctx) (property : String) : String :=
  if property = "@timestamp" then toString now
  else if property = "@id" then uid
  else lookupOrEmpty ctx property

/-- Lazy-regex helper for `/{(.*?)}/g`: given the characters after an opening
`{`, return the content up to the first `}` together with the remaining
characters; fail when a newline or the end of input comes first (`.` matches
no newline, and a lazy `.*?` stops at the first `}`). -/
def scanClose : List Char → Option (List Char × List Char)
  | [] => none
  | c :: cs =>
    if c = '}' then some ([], cs)
    else if c = '\n' then none
    else (scanClose cs).map (fun r => (c :: r.1, r.2))

/-- Matching `subject.match(/{(.*?)}/g)` on a character list: the successive matches,
duplicates included, scanning left to right and resuming after each match.
Fueled structural recursion; each step consumes at least one character
(`scanClose` returns a strictly shorter rest), so fuel `l.length` is
enough. -/
def findMatchesAux : Nat → List Char → List String
  | 0, _ => []
  | _ + 1, [] => []
  | fuel + 1, c :: cs =>
    if c = '{' then
      match scanClose cs with
      | some r => ("\x7b" ++ String.mk r.1 ++ "\x7d") :: findMatchesAux fuel r.2
      | none => findMatchesAux fuel cs
    else findMatchesAux fuel cs

/-- Matching `subject.match(/{(.*?)}/g)` on a string, `null` modelled as the empty list. -/
def findMatches (subject : String) : List String :=
  findMatchesAux subject.data.length subject.data

/-- Slicing `match.slice(1, -1)`: the property name inside a `{...}` match. -/
def matchProperty (m : String) : String :=
  String.mk ((m.data.drop 1).dropLast)

/-- Embedding of `Staticman.prototype._resolvePlaceholders`: compute the match list once,
then for each match (duplicates included) globally replace the literal match
text in the current subject with the resolved value; the regex-escaping of
the match makes each replacement a literal string replacement. -/
def resolvePlaceholders (now : Nat) (uid : String) (ctx : Ctx) (subject : String) : String :=
  (findMatches subject).foldl
    (fun subj m => replaceAll subj m (resolveToken now uid ctx (matchProperty m)))
    subject

/-- One entry of `generatedFields`: a literal configured value, or an object
`{type, options}` whose `type` selects `date` (with `options.format`) or
`slugify`; any other `type` leaves the data untouched. -/
inductive GeneratedField where
  | literal (v : JValue)
  | date (format : Option String)
  | slugifyField
  | other (type : String)
deriving DecidableEq, Repr

/-- The site configuration read from the target repository. The four core
fields checked by `_validateConfig` are `Option`s; the remaining accessors
model the `SiteConfig` wrapper (not among the embedded sources).
Modelled from the spec: per-repository configuration fields
`requiredFields`, `filename`, `moderation`, `generatedFields`,
`transforms`, `allowedOrigins`, spam and notification settings, with
absence modelled by `Option`/defaults. -/
structure SiteConfig where
  allowedFields : Option (List String)
  branch : Option String
  format : Option String
  path : Option String
  allowedOrigins : Option (List String)
  requiredFields : List String
  filename : Option String
  moderation : Bool
  generatedFields : Option (List (String × GeneratedField))
  transforms : Option (List (String × String))
  akismetEnabled : Bool
  notificationsEnabled : Bool
  commitMessage : String
  pullRequestBody : String

/-- Outcome record of `_validateConfig`: an error `code` and, where the
source attaches one, a `data` payload of field names. -/
structure ConfigError where
  code : String
  data : Option (List String)
deriving DecidableEq, Repr

/-- The fixed `requiredFields` list of `_validateConfig`. -/
def configRequiredFields : List String :=
  ["allowedFields", "branch", "format", "path"]

/-- Presence test `objectPath.get(config, requiredField) !== undefined` for the four
checked names. -/
def configFieldPresent (cfg : SiteConfig) : String → Bool
  | "allowedFields" => cfg.allowedFields.isSome
  | "branch" => cfg.branch.isSome
  | "format" => cfg.format.isSome
  | "path" => cfg.path.isSome
  | _ => false

/-- The `missingFields` accumulated by `_validateConfig`, in the fixed
iteration order. -/
def missingConfigFields (cfg : SiteConfig) : List String :=
  configRequiredFields.filter (fun f => !(configFieldPresent cfg f))

/-- Scheme scanning of `require('url').parse`: drop characters
through the first `://`. -/
def dropThroughScheme : List Char → Option (List Char)
  | [] => none
  | ':' :: '/' :: '/' :: rest => some rest
  | _ :: cs => dropThroughScheme cs

/-- Model of `require('url').parse(origin).hostname` for absolute URLs carrying a
scheme: the authority up to the first `/`, `:`, `?` or `#`, lowercased;
`none` models the `null` hostname of scheme-less strings. Modelled from the
spec: the external `url` module at its interface. -/
def urlHostname (s : String) : Option String :=
  (dropThroughScheme s.data).map (fun rest =>
    lowerStr (String.mk (rest.takeWhile
      (fun c => !(c == '/') && !(c == ':') && !(c == '?') && !(c == '#')))))

/-- The origin gate of `_validateConfig`, active when `allowedOrigins` is
present and non-empty: a falsy `options.origin` fails with
`MISSING_ORIGIN`; an origin whose parsed hostname strictly equals no list
entry fails with `INVALID_ORIGIN`; `none` means the gate passes. -/
def checkOrigin (opts : OptMap) (cfg : SiteConfig) : Option ConfigError :=
  match cfg.allowedOrigins with
  | none => none
  | some origins =>
    if origins.isEmpty then none
    else if optTruthy opts "origin" then
      let hostname := urlHostname ((optGet opts "origin").getD "")
      if origins.any (fun origin => hostname == some origin) then none
      else some ⟨"INVALID_ORIGIN", none⟩
    else some ⟨"MISSING_ORIGIN", none⟩

/-- Embedding of `Staticman.prototype._validateConfig`: `none` models the `null` returned
on success (after which the config becomes the cached site config). -/
def validateConfig (opts : OptMap) (cfg : Option SiteConfig) : Option ConfigError :=
  match cfg with
  | none => some ⟨"MISSING_CONFIG_BLOCK", none⟩
  | some c =>
    if !(missingConfigFields c).isEmpty then
      some ⟨"MISSING_CONFIG_FIELDS", some (missingConfigFields c)⟩
    else checkOrigin opts c

/-- Escape `"` and `\` in a JSON string literal. -/
def jsonEscape (s : String) : String :=
  String.mk (s.data.foldr
    (fun c acc =>
      if c == '"' then '\\' :: '"' :: acc
      else if c == '\\' then '\\' :: '\\' :: acc
      else c :: acc) [])

/-- JSON rendering of one scalar. -/
def jvJson : JValue → String
  | .str s => "\"" ++ jsonEscape s ++ "\""
  | .num n => toString n
  | .bool b => if b then "true" else "false"

/-- Model of `JSON.stringify` of a flat mapping of scalars in key order. -/
def jsonStringify (fields : Fields) : String :=
  "\x7b" ++ (match fields.map (fun p => "\"" ++ jsonEscape p.1 ++ "\":" ++ jvJson p.2) with
          | [] => ""
          | e :: es => es.foldl (fun acc x => acc ++ "," ++ x) e) ++ "\x7d"

/-- Rejection values of `_createFile`: the two string codes plus a yaml
serialization failure carried by the thrown error. -/
inductive CreateFileError where
  | noFrontmatterContentTransform
  | invalidFormat
  | yamlError (msg : String)
deriving DecidableEq, Repr

/-- The lookup `transforms && Object.keys(transforms).find(f => transforms[f] ===
'frontmatterContent')`: the first field declared as the frontmatter body. -/
def frontmatterContentField (transforms : Option (List (String × String))) :
    Option String :=
  match transforms with
  | none => none
  | some ts => (ts.find? (fun p => p.2 == "frontmatterContent")).map Prod.fst

/-- Embedding of `Staticman.prototype._createFile`. The js-yaml `safeDump` collaborator
is the parameter `ydump` (an `Except` models a throwing dump). Returns the
serialized text together with the mapping after the
`delete fields[contentField]` mutation; the template literal coerces a
missing content field to the string `undefined`. -/
def createFile (ydump : Fields → Except String String) (format : String)
    (transforms : Option (List (String × String))) (fields : Fields) :
    Except CreateFileError (String × Fields) :=
  match lowerStr format with
  | "json" => .ok (jsonStringify fields, fields)
  | "yaml" =>
    match ydump fields with
    | .ok out => .ok (out, fields)
    | .error e => .error (.yamlError e)
  | "yml" =>
    match ydump fields with
    | .ok out => .ok (out, fields)
    | .error e => .error (.yamlError e)
  | "frontmatter" =>
    match frontmatterContentField transforms with
    | none => .error .noFrontmatterContentTransform
    | some contentField =>
      let content :=
        match lookupField fields contentField with
        | some v => jvToString v
        | none => "undefined"
      let rest := fields.filter (fun p => !(p.1 == contentField))
      match ydump rest with
      | .ok out => .ok ("---\n" ++ out ++ "---\n" ++ content ++ "\n", rest)
      | .error e => .error (.yamlError e)
  | _ => .error .invalidFormat

/-- Embedding of `Staticman.prototype._getExtensionForFormat`; the JS switch falls
through to `undefined` on an unknown format. -/
def getExtensionForFormat (format : String) : Option String :=
  match lowerStr format with
  | "json" => some "json"
  | "yaml" => some "yml"
  | "yml" => some "yml"
  | "frontmatter" => some "md"
  | _ => none

/-- The single trailing-separator strip of `_getNewFilePath`
(`path.slice(-1) === '/'`). -/
def stripTrailingSlash (s : String) : String :=
  if s.data.getLast? == some '/' then String.mk s.data.dropLast else s

/-- Embedding of `Staticman.prototype._getNewFilePath`: resolve the `path` template,
strip one trailing `/`, resolve the `filename` template (the uid when the
configured filename is falsy), and append the extension for the format; the
template literal coerces an `undefined` extension to the string
`undefined`. -/
def getNewFilePath (now : Nat) (uid : String) (cfg : SiteConfig) (opts : OptMap)
    (data : Fields) : String :=
  let filename :=
    match cfg.filename with
    | some f => if f == "" then uid else resolvePlaceholders now uid ⟨data, opts⟩ f
    | none => uid
  let path := stripTrailingSlash (resolvePlaceholders now uid ⟨data, opts⟩ (cfg.path.getD ""))
  let extension := (getExtensionForFormat (cfg.format.getD "")).getD "undefined"
  path ++ "/" ++ filename ++ "." ++ extension

/-- Embedding of `Staticman.prototype._createDate`: epoch milliseconds, floored epoch
seconds, or the ISO-8601 rendering (`isoNow`, supplied by the clock
environment) for `iso8601` and any other value. -/
def createDate (now : Nat) (isoNow : String) (format : Option String) : JValue :=
  match format with
  | some "timestamp" => .num (Int.ofNat now)
  | some "timestamp-seconds" => .num (Int.ofNat (now / 1000))
  | _ => .str isoNow

/-- Embedding of `Staticman.prototype._applyGeneratedFields`: assign each generated field
in declaration order; `slugify` runs only when `options.field` is a string,
slugging that field's value and lowercasing it (the external `slug` library
is the environment's `slugify`, applied to the string coercion, with a
missing source field modelled as the empty string). -/
def applyGeneratedFields (now : Nat) (isoNow : String) (slugify : String → String)
    (opts : OptMap) (generatedFields : Option (List (String × GeneratedField)))
    (data : Fields) : Fields :=
  match generatedFields with
  | none => data
  | some gfs =>
    gfs.foldl (fun d p =>
      match p.2 with
      | .literal v => setField d p.1 v
      | .date fmt => setField d p.1 (createDate now isoNow fmt)
      | .slugifyField =>
        match optGet opts "field" with
        | some srcName =>
          setField d p.1 (JValue.str (lowerStr (slugify
            (jvToString ((lookupField d srcName).getD (JValue.str ""))))))
        | none => d
      | .other _ => d) data

/-- Embedding of `Staticman.prototype._applyTransforms`: fields named in `transforms`
with a falsy value are skipped; the `md5` transform replaces the value with
the environment's content hash of its string coercion; other declared
transform names leave the field unchanged here. -/
def applyTransforms (md5 : String → String)
    (transforms : Option (List (String × String))) (fields : Fields) : Fields :=
  match transforms with
  | none => fields
  | some ts =>
    ts.foldl (fun fs p =>
      if jsTruthy (lookupField fs p.1) then
        if p.2 == "md5" then
          setField fs p.1 (JValue.str (md5 (jvToString ((lookupField fs p.1).getD (JValue.str "")))))
        else fs
      else fs) fields

/-- Semantics of `Object.assign(target, source)`: overwrite `target`'s values at shared
keys, then append `source`'s new keys in order. -/
def objectAssign (target source : Fields) : Fields :=
  target.map (fun p =>
    match lookupField source p.1 with
    | some v => (p.1, v)
    | none => p)
    ++ source.filter (fun p => !(lookupField target p.1).isSome)

/-- Embedding of `Staticman.prototype._applyInternalFields`: build `{_id: uid}`, add
`_parent` when `options.parent` is truthy, then `Object.assign(internal,
data)` — so a key already in `data` keeps `data`'s value. -/
def applyInternalFields (uid : String) (opts : OptMap) (data : Fields) : Fields :=
  let internalFields :=
    [("_id", JValue.str uid)]
      ++ (if optTruthy opts "parent" then
            [("_parent", JValue.str ((optGet opts "parent").getD ""))]
          else [])
  objectAssign internalFields data

/-- The environment of external collaborators threaded through
`processEntry`: clock, uuid, hashing, slug and yaml libraries, and the spam
classifier's response (`.error` a transport failure, `.ok` the verdict). -/
structure Env where
  now : Nat
  isoNow : String
  uid : String
  md5 : String → String
  slugify : String → String
  ydump : Fields → Except String String
  spamVerdict : Except String Bool

/-- Observable calls `processEntry` issues against the GitHub gateway and
the subscriptions manager, in order. (`writeFileAndSendPR` also carries the
generated PR body in the source; no claim observes it, so the effect
records the path, content, branch and commit message.) -/
inductive Effect where
  | subscribe (parent address : String)
  | writeFileAndSendPR (path content branch commitMessage : String)
  | sendNotifications (parent : String)
  | writeFile (path content branch commitMessage : String)
deriving DecidableEq, Repr

/-- A pipeline stage's rejection value. -/
inductive PipeError where
  | config (e : ConfigError)
  | branchMismatch
  | spamTransport (msg : String)
  | isSpam
  | invalidFields (errs : List ErrorEntry)
  | createFile (e : CreateFileError)
deriving DecidableEq, Repr

/-- Terminal success value of `processEntry`: `{fields, redirect}`, the JS
`redirect: false` modelled as `none`. -/
structure EntryResult where
  fields : Fields
  redirect : Option String
deriving DecidableEq, Repr

/-- The mapping `this.fields` holds at dispatch time: the validated
(trimmed) submission after the in-place generated-field and transform
passes. -/
def processedFields (env : Env) (opts : OptMap) (cfg : SiteConfig)
    (trimmed : Fields) : Fields :=
  applyTransforms env.md5 cfg.transforms
    (applyGeneratedFields env.now env.isoNow env.slugify opts cfg.generatedFields trimmed)

/-- The fresh mapping handed to `_createFile`: processed fields extended
with the internal fields. -/
def serializerInput (env : Env) (opts : OptMap) (cfg : SiteConfig)
    (trimmed : Fields) : Fields :=
  applyInternalFields env.uid opts (processedFields env opts cfg trimmed)

/-- The commit message computed at dispatch: the `commitMessage` template
resolved against the processed fields and the options. -/
def commitMessageOf (env : Env) (opts : OptMap) (cfg : SiteConfig)
    (trimmed : Fields) : String :=
  resolvePlaceholders env.now env.uid ⟨processedFields env opts cfg trimmed, opts⟩
    cfg.commitMessage

/-- The subscription side effect of dispatch: recorded when notifications
are configured, `options.parent` and `options.subscribe` are truthy, and
the named field has a truthy value (`subscriptions.set` failures are
swallowed, so the call is recorded unconditionally). -/
def subscribeEffects (env : Env) (opts : OptMap) (cfg : SiteConfig)
    (trimmed : Fields) : List Effect :=
  if cfg.notificationsEnabled && optTruthy opts "parent" && optTruthy opts "subscribe"
      && jsTruthy (lookupField (processedFields env opts cfg trimmed)
        ((optGet opts "subscribe").getD "")) then
    [Effect.subscribe ((optGet opts "parent").getD "")
      (jvToString ((lookupField (processedFields env opts cfg trimmed)
        ((optGet opts "subscribe").getD "")).getD (JValue.str "")))]
  else []

/-- The commit-or-review decision of dispatch: with `moderation`, one
write-and-review-request on the uniquely named branch; otherwise an
optional notification delivery followed by the direct write. -/
def dispatchEffects (env : Env) (opts : OptMap) (cfg : SiteConfig)
    (paramBranch : String) (trimmed : Fields) (data : String) : List Effect :=
  if cfg.moderation then
    [Effect.writeFileAndSendPR
      (getNewFilePath env.now env.uid cfg opts (processedFields env opts cfg trimmed))
      data ("staticman_" ++ env.uid) (commitMessageOf env opts cfg trimmed)]
  else
    (if cfg.notificationsEnabled && optTruthy opts "parent" then
      [Effect.sendNotifications ((optGet opts "parent").getD "")]
     else [])
      ++ [Effect.writeFile
            (getNewFilePath env.now env.uid cfg opts (processedFields env opts cfg trimmed))
            data paramBranch (commitMessageOf env opts cfg trimmed)]

/-- Embedding of `Staticman.prototype.processEntry` with `getSiteConfig` inlined (the
config file read succeeds and yields `cfg`): run the stages in promise
order, emitting gateway effects at dispatch; every failure short-circuits
with the effects issued so far — none are issued before dispatch. The
spam stage's scrutinee folds the `akismet.enabled` guard into the
classifier response: disabled spam checking behaves as a ham verdict. -/
def processEntry (env : Env) (cfg : Option SiteConfig) (paramBranch : String)
    (fields : Fields) (opts : OptMap) :
    Except PipeError EntryResult × List Effect :=
  match cfg with
  | none => (.error (.config ⟨"MISSING_CONFIG_BLOCK", none⟩), [])
  | some c =>
    match validateConfig opts (some c) with
    | some e => (.error (.config e), [])
    | none =>
      if c.branch ≠ some paramBranch then (.error .branchMismatch, [])
      else
        match (if c.akismetEnabled then env.spamVerdict else .ok false) with
        | .error e => (.error (.spamTransport e), [])
        | .ok true => (.error .isSpam, [])
        | .ok false =>
          match validateFields (c.allowedFields.getD []) c.requiredFields fields with
          | (some errs, _) => (.error (.invalidFields errs), [])
          | (none, trimmed) =>
            match createFile env.ydump (c.format.getD "") c.transforms
                (serializerInput env opts c trimmed) with
            | .error e => (.error (.createFile e), [])
            | .ok (data, _) =>
              (.ok ⟨processedFields env opts c trimmed,
                    if optTruthy opts "redirect" then optGet opts "redirect" else none⟩,
               subscribeEffects env opts c trimmed
                 ++ dispatchEffects env opts c paramBranch trimmed data)

/-! ## Concrete configurations and environments used by the claims -/

/-- Configuration with `allowedOrigins = ["example.com"]` and the four
required fields present. -/
def cfgOriginEx : SiteConfig :=
  ⟨some [], some "master", some "json", some "p", some ["example.com"], [], none, false,
   none, none, false, false, "", ""⟩

/-- Configuration with path template `posts/{options.parent}` and filename
template `{@id}`, of the given format. -/
def cfgPathEx (format : String) : SiteConfig :=
  ⟨some [], some "master", some format, some "posts/\x7boptions.parent\x7d", none, [],
   some "\x7b@id\x7d", false, none, none, false, false, "", ""⟩

/-- Configuration whose path template ends in a separator. -/
def cfgPathSlashEx : SiteConfig :=
  ⟨some [], some "master", some "json", some "posts/", none, [], none,
   false, none, none, false, false, "", ""⟩

/-- Configuration with spam checking enabled. -/
def cfgSpamEx : SiteConfig :=
  ⟨some ["name"], some "master", some "json", some "p", none, [], none, false, none, none,
   true, false, "c", ""⟩

/-- Environment whose spam classifier reports spam. -/
def envSpamEx : Env := ⟨0, "", "abc", id, id, fun _ => .ok "", .ok true⟩

/-- Environment whose spam classifier fails with a transport error. -/
def envSpamErrEx : Env := ⟨0, "", "abc", id, id, fun _ => .ok "", .error "transport"⟩

/-- Minimal json configuration (empty `allowedFields`, no moderation). -/
def cfgJsonEx : SiteConfig :=
  ⟨some [], some "master", some "json", some "p", none, [], none, false, none, none,
   false, false, "c", ""⟩

/-- Benign environment: ham verdict, identity hashing and slugging. -/
def envHamEx : Env := ⟨0, "", "abc", id, id, fun _ => .ok "", .ok false⟩

/-- js-yaml stand-in dumping a flat scalar mapping as plain `key: value`
lines, matching `safeDump` on the claims' concrete inputs. -/
def ydumpEx : Fields → Except String String :=
  fun fs => .ok (String.join (fs.map (fun p => p.1 ++ ": " ++ jvToString p.2 ++ "\n")))

/-- Frontmatter configuration allowing `title`/`body` with `body` declared
as `frontmatterContent`. -/
def cfgFmEx : SiteConfig :=
  ⟨some ["title", "body"], some "master", some "frontmatter", some "p", none, [], none, false,
   none, some [("body", "frontmatterContent")], false, false, "c", ""⟩

/-- Environment dumping yaml via `ydumpEx`, ham verdict. -/
def envFmEx : Env := ⟨0, "", "abc", id, id, ydumpEx, .ok false⟩

/-! ## Supporting lemmas -/

theorem lookupField_cons (k : String) (v : JValue) (rest : Fields) (f : String) :
    lookupField ((k, v) :: rest) f = if k = f then some v else lookupField rest f := by
  by_cases hk : k = f
  · simp [lookupField, List.find?_cons_of_pos, hk]
  · simp [lookupField, List.find?_cons_of_neg, hk]

theorem lookupField_trimFields (fields : Fields) (f : String) :
    lookupField (trimFields fields) f = (lookupField fields f).map trimValue := by
  induction fields with
  | nil => rfl
  | cons p rest ih =>
    obtain ⟨k, v⟩ := p
    by_cases hk : k = f
    · simp [trimFields, lookupField_cons, hk]
    · simpa [trimFields, lookupField_cons, hk] using ih

theorem lookupField_eq_some_iff_mem {fields : Fields} {f : String} {v : JValue}
    (h : (fields.map Prod.fst).Nodup) :
    lookupField fields f = some v ↔ (f, v) ∈ fields := by
  induction fields with
  | nil => simp [lookupField]
  | cons p rest ih =>
    obtain ⟨k, w⟩ := p
    simp only [List.map_cons, List.nodup_cons] at h
    obtain ⟨hk, hrest⟩ := h
    rw [lookupField_cons]
    by_cases hkf : k = f
    · subst hkf
      rw [if_pos rfl]
      constructor
      · intro h1
        rw [Option.some.injEq] at h1
        subst h1
        exact List.mem_cons_self _ _
      · intro h1
        rcases List.mem_cons.mp h1 with h2 | h2
        · rw [((Prod.mk.injEq _ _ _ _).mp h2).2]
        · exact absurd (List.mem_map_of_mem Prod.fst h2) hk
    · rw [if_neg hkf, ih hrest]
      constructor
      · intro h1
        exact List.mem_cons_of_mem _ h1
      · intro h1
        rcases List.mem_cons.mp h1 with h2 | h2
        · exact absurd ((Prod.mk.injEq _ _ _ _).mp h2).1.symm hkf
        · exact h2

theorem mem_invalidFieldsOf {allowed : List String} {fields : Fields} {f : String} :
    f ∈ invalidFieldsOf allowed fields
      ↔ ∃ v, (f, v) ∈ fields ∧ allowed.contains f = false ∧ v ≠ JValue.str "" := by
  simp only [invalidFieldsOf, List.mem_map, List.mem_filter]
  constructor
  · rintro ⟨⟨k, v⟩, ⟨hmem, hcond⟩, rfl⟩
    simp only [Bool.and_eq_true, Bool.not_eq_true'] at hcond
    exact ⟨v, hmem, hcond.1, beq_eq_false_iff_ne.mp hcond.2⟩
  · rintro ⟨v, hmem, hcon, hne⟩
    refine ⟨(f, v), ⟨hmem, ?_⟩, rfl⟩
    simp only [Bool.and_eq_true, Bool.not_eq_true']
    exact ⟨hcon, beq_eq_false_iff_ne.mpr hne⟩

theorem mem_missingRequiredOf {required : List String} {fields : Fields} {r : String} :
    r ∈ missingRequiredOf required fields
      ↔ r ∈ required ∧ (lookupField fields r = none
          ∨ lookupField fields r = some (JValue.str "")) := by
  simp only [missingRequiredOf, List.mem_filter]
  constructor
  · rintro ⟨h1, h2⟩
    refine ⟨h1, ?_⟩
    cases hl : lookupField fields r with
    | none => exact Or.inl rfl
    | some v =>
      rw [hl] at h2
      simp only [beq_iff_eq] at h2
      exact Or.inr (by rw [h2])
  · rintro ⟨h1, h2⟩
    refine ⟨h1, ?_⟩
    rcases h2 with h | h <;> rw [h] <;> simp

/-! ## Claim theorems -/

/-- C1: for every submission, a field records as invalid exactly when it is
not in `allowedFields` and its (untrimmed) value is not the empty string;
the returned mapping is the input with every string value trimmed in place;
a name in `requiredFields` records as missing exactly when its value after
trimming is absent or the empty string; validation fails iff one of the two
lists is non-empty, with a structured result combining
`MISSING_REQUIRED_FIELDS` and `INVALID_FIELDS` (each carrying its offending
field-name list), and otherwise succeeds with the trimmed mapping. -/
theorem validateFields_contract (allowed required : List String) (fields : Fields)
    (hkeys : (fields.map Prod.fst).Nodup) :
    (validateFields allowed required fields).2 = trimFields fields
    ∧ (∀ f s, lookupField fields f = some (JValue.str s) →
        lookupField (validateFields allowed required fields).2 f
          = some (JValue.str (jsTrim s)))
    ∧ (∀ f, f ∈ invalidFieldsOf allowed fields
        ↔ allowed.contains f = false
          ∧ ∃ v, lookupField fields f = some v ∧ v ≠ JValue.str "")
    ∧ (∀ r, r ∈ missingRequiredOf required (trimFields fields)
        ↔ r ∈ required
          ∧ (lookupField (trimFields fields) r = none
            ∨ lookupField (trimFields fields) r = some (JValue.str "")))
    ∧ ((validateFields allowed required fields).1 = none
        ↔ missingRequiredOf required (trimFields fields) = []
          ∧ invalidFieldsOf allowed fields = [])
    ∧ ((validateFields allowed required fields).1 = none
        ∨ (validateFields allowed required fields).1
            = some ((if (missingRequiredOf required (trimFields fields)).isEmpty then []
                     else [ErrorEntry.mk "MISSING_REQUIRED_FIELDS"
                       (missingRequiredOf required (trimFields fields))])
                ++ (if (invalidFieldsOf allowed fields).isEmpty then []
                    else [ErrorEntry.mk "INVALID_FIELDS"
                      (invalidFieldsOf allowed fields)]))) := by
  refine ⟨rfl, ?_, ?_, ?_, ?_, ?_⟩
  · intro f s hf
    show lookupField (trimFields fields) f = _
    rw [lookupField_trimFields, hf]
    rfl
  · intro f
    rw [mem_invalidFieldsOf]
    constructor
    · rintro ⟨v, hmem, hcon, hne⟩
      exact ⟨hcon, v, (lookupField_eq_some_iff_mem hkeys).mpr hmem, hne⟩
    · rintro ⟨hcon, v, hl, hne⟩
      exact ⟨v, (lookupField_eq_some_iff_mem hkeys).mp hl, hcon, hne⟩
  · intro r
    exact mem_missingRequiredOf
  · by_cases hM : missingRequiredOf required (trimFields fields) = [] <;>
      by_cases hI : invalidFieldsOf allowed fields = [] <;>
      simp [validateFields, hM, hI]
  · by_cases hM : missingRequiredOf required (trimFields fields) = [] <;>
      by_cases hI : invalidFieldsOf allowed fields = [] <;>
      simp [validateFields, hM, hI]

/-- C1 witness: a concrete submission with a non-empty disallowed field and
a missing required field fails with both structured errors. -/
theorem validateFields_contract_witness :
    ((([("name", JValue.str " x ")] : Fields).map Prod.fst).Nodup)
    ∧ "junk" ∈ invalidFieldsOf ["name"] [("junk", JValue.str "v")] := by
  refine ⟨by decide, ?_⟩
  exact ((validateFields_contract ["name"] ["name"] [("junk", JValue.str "v")]
    (by decide)).2.2.1 "junk").mpr ⟨by decide, JValue.str "v", by decide, by decide⟩

/-- C9: the disallowed-field check reads the untrimmed value — a disallowed
field whose value is a non-empty whitespace-only string is recorded invalid
even though its trimmed value is empty — while the required-field check
runs after trimming, so a required field submitted as whitespace-only is
recorded missing. -/
theorem validateFields_trim_asymmetry (allowed required : List String)
    (fields : Fields) (f r v w : String)
    (hf : (f, JValue.str v) ∈ fields) (hfa : allowed.contains f = false)
    (hv : v ≠ "") (hvt : jsTrim v = "")
    (hr : r ∈ required) (hw : lookupField fields r = some (JValue.str w))
    (hwne : w ≠ "") (hwt : jsTrim w = "") :
    f ∈ invalidFieldsOf allowed fields
    ∧ r ∈ missingRequiredOf required (trimFields fields) := by
  constructor
  · exact mem_invalidFieldsOf.mpr ⟨JValue.str v, hf, hfa, by simp [hv]⟩
  · refine mem_missingRequiredOf.mpr ⟨hr, Or.inr ?_⟩
    rw [lookupField_trimFields, hw]
    simp [trimValue, hwt]

/-- C9 witness: `junk = " "` (disallowed, whitespace-only) is invalid and
`name = " "` (required, whitespace-only) is missing-required. -/
theorem validateFields_trim_asymmetry_witness :
    "junk" ∈ invalidFieldsOf ["name"] [("name", JValue.str " "), ("junk", JValue.str " ")]
    ∧ "name" ∈ missingRequiredOf ["name"]
        (trimFields [("name", JValue.str " "), ("junk", JValue.str " ")]) := by
  exact validateFields_trim_asymmetry ["name"] ["name"]
    [("name", JValue.str " "), ("junk", JValue.str " ")] "junk" "name" " " " "
    (by decide) (by decide) (by decide) (by decide) (by decide) (by decide)
    (by decide) (by decide)

theorem findMatchesAux_nil_of_no_brace (fuel : Nat) (l : List Char)
    (h : ∀ c ∈ l, c ≠ '{') : findMatchesAux fuel l = [] := by
  induction fuel generalizing l with
  | zero => rfl
  | succ fuel ih =>
    cases l with
    | nil => rfl
    | cons c cs =>
      have hc : c ≠ '{' := h c (List.mem_cons_self _ _)
      simp only [findMatchesAux, if_neg hc]
      exact ih cs (fun d hd => h d (List.mem_cons_of_mem _ hd))

/-- C2 (amended): a template with no `{` — in particular one with no
`{...}` token — is returned unchanged; resolution proceeds by one global
literal replacement per match-list entry, the match list being computed
once from the original template (so, the same token occurring several
times, the later passes for it also replace occurrences introduced by
earlier replacement values — replacements are otherwise never re-scanned);
each token resolves by the order literal `@timestamp` ↦ current epoch
milliseconds, literal `@id` ↦ unique entry identifier, otherwise
dotted-path context lookup defaulting to the empty string. -/
theorem resolvePlaceholders_contract :
    (∀ now uid ctx subject, (∀ c ∈ subject.data, c ≠ '{') →
        resolvePlaceholders now uid ctx subject = subject)
    ∧ (∀ now uid ctx subject, findMatches subject = [] →
        resolvePlaceholders now uid ctx subject = subject)
    ∧ (∀ now uid ctx subject, resolvePlaceholders now uid ctx subject
        = (findMatches subject).foldl
            (fun subj m => replaceAll subj m (resolveToken now uid ctx (matchProperty m)))
            subject)
    ∧ (∀ now uid ctx, resolveToken now uid ctx "@timestamp" = toString now)
    ∧ (∀ now uid ctx, resolveToken now uid ctx "@id" = uid)
    ∧ (∀ now uid ctx p, p ≠ "@timestamp" → p ≠ "@id" →
        resolveToken now uid ctx p = lookupOrEmpty ctx p)
    ∧ (∀ now uid ctx p, p ≠ "@timestamp" → p ≠ "@id" → ctxGet ctx p = none →
        resolveToken now uid ctx p = "") := by
  refine ⟨?_, ?_, fun _ _ _ _ => rfl, fun _ _ _ => rfl, fun _ _ _ => rfl, ?_, ?_⟩
  · intro now uid ctx subject h
    unfold resolvePlaceholders findMatches
    rw [findMatchesAux_nil_of_no_brace _ _ h]
    rfl
  · intro now uid ctx subject h
    unfold resolvePlaceholders
    rw [h]
    rfl
  · intro now uid ctx p h1 h2
    simp [resolveToken, h1, h2]
  · intro now uid ctx p h1 h2 h3
    simp [resolveToken, lookupOrEmpty, h1, h2, h3]

/-- C2 witness: a token-free template is unchanged, and an unresolvable
dotted path yields the empty string. -/
theorem resolvePlaceholders_contract_witness :
    resolvePlaceholders 5 "u" ⟨[], []⟩ "no tokens here" = "no tokens here"
    ∧ resolveToken 5 "u" ⟨[], []⟩ "missing.path" = "" := by
  constructor
  · exact resolvePlaceholders_contract.1 5 "u" ⟨[], []⟩ "no tokens here" (by decide)
  · exact resolvePlaceholders_contract.2.2.2.2.2.2 5 "u" ⟨[], []⟩ "missing.path"
      (by decide) (by decide) (by rfl)

/-- C2 counterexample to the claim as stated: the token `{fields.a}` occurs
twice and its context value contains the token itself; the second global
replacement replaces the occurrences introduced by the first, so the
replacement value is re-scanned, where a never-re-scanned resolution would
give one wrapping only. -/
theorem resolvePlaceholders_rescan_counterexample :
    resolvePlaceholders 0 "u" ⟨[("a", JValue.str "<\x7bfields.a\x7d>")], []⟩ "\x7bfields.a\x7d\x7bfields.a\x7d"
      = "<<\x7bfields.a\x7d>><<\x7bfields.a\x7d>>"
    ∧ resolvePlaceholders 0 "u" ⟨[("a", JValue.str "<\x7bfields.a\x7d>")], []⟩ "\x7bfields.a\x7d\x7bfields.a\x7d"
      ≠ "<\x7bfields.a\x7d><\x7bfields.a\x7d>" :=
  ⟨by rfl, by decide⟩

/-- C3: `_createFile` dispatch by format — any format outside
json/yaml/yml/frontmatter (after lowercasing) fails with `INVALID_FORMAT`;
`frontmatter` without a transform declared `frontmatterContent` fails with
`NO_FRONTMATTER_CONTENT_TRANSFORM`; otherwise the declared field's value
becomes the document body, the field is deleted from the mapping, and the
output is `---`, the YAML header of the remaining fields, `---`, then the
body. -/
theorem createFile_contract :
    (∀ ydump format transforms fields,
        lowerStr format ∉ (["json", "yaml", "yml", "frontmatter"] : List String) →
        createFile ydump format transforms fields = .error .invalidFormat)
    ∧ (∀ ydump transforms fields,
        frontmatterContentField transforms = none →
        createFile ydump "frontmatter" transforms fields
          = .error .noFrontmatterContentTransform)
    ∧ (∀ ydump transforms fields c v out,
        frontmatterContentField transforms = some c →
        lookupField fields c = some v →
        ydump (fields.filter (fun p => !(p.1 == c))) = .ok out →
        createFile ydump "frontmatter" transforms fields
          = .ok ("---\n" ++ out ++ "---\n" ++ jvToString v ++ "\n",
                 fields.filter (fun p => !(p.1 == c)))) := by
  refine ⟨?_, ?_, ?_⟩
  · intro ydump format transforms fields h
    simp only [List.mem_cons, List.mem_singleton, not_or] at h
    obtain ⟨h1, h2, h3, h4, -⟩ := h
    unfold createFile
    split
    · rename_i heq; exact absurd heq h1
    · rename_i heq; exact absurd heq h2
    · rename_i heq; exact absurd heq h3
    · rename_i heq; exact absurd heq h4
    · rfl
  · intro ydump transforms fields h
    unfold createFile
    split
    · rename_i heq; exact absurd heq (by decide)
    · rename_i heq; exact absurd heq (by decide)
    · rename_i heq; exact absurd heq (by decide)
    · rw [h]
    · rename_i hne; exact absurd (by decide : lowerStr "frontmatter" = "frontmatter") hne
  · intro ydump transforms fields c v out hc hv hd
    unfold createFile
    split
    · rename_i heq; exact absurd heq (by decide)
    · rename_i heq; exact absurd heq (by decide)
    · rename_i heq; exact absurd heq (by decide)
    · rw [hc]
      simp only [hv, hd]
    · rename_i hne; exact absurd (by decide : lowerStr "frontmatter" = "frontmatter") hne

/-- C3 witness: the claim's frontmatter example — content field
`body = "Hello"`, other field `title = "T"` — yields `---`, the YAML of
`{title: "T"}`, `---`, then `Hello`; the body field is deleted from the
serialized mapping. -/
theorem createFile_contract_witness :
    createFile ydumpEx "frontmatter" (some [("body", "frontmatterContent")])
        [("title", JValue.str "T"), ("body", JValue.str "Hello")]
      = .ok ("---\ntitle: T\n---\nHello\n", [("title", JValue.str "T")]) := by
  exact createFile_contract.2.2 ydumpEx (some [("body", "frontmatterContent")])
    [("title", JValue.str "T"), ("body", JValue.str "Hello")] "body" (JValue.str "Hello")
    "title: T\n" (by rfl) (by rfl) (by rfl)

/-- C4: `_validateConfig` — an absent configuration fails with
`MISSING_CONFIG_BLOCK`; a configuration missing any of `allowedFields`,
`branch`, `format`, `path` fails with `MISSING_CONFIG_FIELDS` carrying
exactly the missing names; with the four present and the origin gate
passing, validation succeeds. -/
theorem validateConfig_contract :
    (∀ opts, validateConfig opts none = some ⟨"MISSING_CONFIG_BLOCK", none⟩)
    ∧ (∀ opts cfg, missingConfigFields cfg ≠ [] →
        validateConfig opts (some cfg)
          = some ⟨"MISSING_CONFIG_FIELDS", some (missingConfigFields cfg)⟩)
    ∧ (∀ cfg f, f ∈ missingConfigFields cfg
        ↔ f ∈ configRequiredFields ∧ configFieldPresent cfg f = false)
    ∧ (∀ opts cfg,
        cfg.allowedFields.isSome → cfg.branch.isSome → cfg.format.isSome →
        cfg.path.isSome → checkOrigin opts cfg = none →
        validateConfig opts (some cfg) = none) := by
  refine ⟨fun _ => rfl, ?_, ?_, ?_⟩
  · intro opts cfg h
    cases hm : missingConfigFields cfg with
    | nil => exact absurd hm h
    | cons a l => simp [validateConfig, hm]
  · intro cfg f
    simp [missingConfigFields, List.mem_filter]
  · intro opts cfg h1 h2 h3 h4 h5
    have hm : missingConfigFields cfg = [] := by
      simp [missingConfigFields, configRequiredFields, List.filter, configFieldPresent,
        h1, h2, h3, h4]
    simp [validateConfig, hm, h5]

/-- C4 witness: a configuration lacking `allowedFields` and `format` fails
listing exactly those two names, and a complete one passes. -/
theorem validateConfig_contract_witness :
    validateConfig []
        (some ⟨none, some "b", none, some "p", none, [], none, false, none, none,
          false, false, "", ""⟩)
      = some ⟨"MISSING_CONFIG_FIELDS", some ["allowedFields", "format"]⟩
    ∧ validateConfig [] (some cfgJsonEx) = none := by
  constructor
  · exact validateConfig_contract.2.1 []
      ⟨none, some "b", none, some "p", none, [], none, false, none, none,
        false, false, "", ""⟩ (by decide)
  · exact validateConfig_contract.2.2.2 [] cfgJsonEx rfl rfl rfl rfl rfl

/-- C7: the origin gate — with a non-empty `allowedOrigins`, a falsy
`options.origin` fails with `MISSING_ORIGIN`; a present origin whose parsed
hostname equals no list entry fails with `INVALID_ORIGIN`; a hostname
equal to some entry passes; concretely, `allowedOrigins = ["example.com"]`
rejects `http://evil.com` and accepts `http://example.com/page`. -/
theorem checkOrigin_contract :
    (∀ opts cfg origins, cfg.allowedOrigins = some origins → origins ≠ [] →
        optTruthy opts "origin" = false →
        checkOrigin opts cfg = some ⟨"MISSING_ORIGIN", none⟩)
    ∧ (∀ opts cfg origins origin, cfg.allowedOrigins = some origins → origins ≠ [] →
        optGet opts "origin" = some origin → origin ≠ "" →
        (∀ o, o ∈ origins → urlHostname origin ≠ some o) →
        checkOrigin opts cfg = some ⟨"INVALID_ORIGIN", none⟩)
    ∧ (∀ opts cfg origins origin o, cfg.allowedOrigins = some origins →
        optGet opts "origin" = some origin → origin ≠ "" →
        o ∈ origins → urlHostname origin = some o →
        checkOrigin opts cfg = none)
    ∧ validateConfig [("origin", "http://evil.com")] (some cfgOriginEx)
        = some ⟨"INVALID_ORIGIN", none⟩
    ∧ validateConfig [("origin", "http://example.com/page")] (some cfgOriginEx) = none := by
  refine ⟨?_, ?_, ?_, by rfl, by rfl⟩
  · intro opts cfg origins hA hne hfalsy
    unfold checkOrigin
    rw [hA]
    cases origins with
    | nil => exact absurd rfl hne
    | cons a l => simp [hfalsy]
  · intro opts cfg origins origin hA hne hO hOne hmiss
    unfold checkOrigin
    rw [hA]
    have htr : optTruthy opts "origin" = true := by
      simp [optTruthy, hO, hOne]
    have hany : origins.any (fun o => urlHostname ((optGet opts "origin").getD "") == some o)
        = false := by
      rw [hO]
      simp only [Option.getD_some, List.any_eq_false]
      intro o ho
      simpa using hmiss o ho
    cases origins with
    | nil => exact absurd rfl hne
    | cons a l => simp [htr, hany]
  · intro opts cfg origins origin o hA hO hOne ho hhost
    unfold checkOrigin
    rw [hA]
    have htr : optTruthy opts "origin" = true := by
      simp [optTruthy, hO, hOne]
    have hanyt : origins.any (fun x => urlHostname ((optGet opts "origin").getD "") == some x)
        = true := by
      rw [hO]
      simp only [Option.getD_some, List.any_eq_true]
      exact ⟨o, ho, by simp [hhost]⟩
    have hne : origins.isEmpty = false := by
      cases origins with
      | nil => exact absurd ho (by simp)
      | cons a l => rfl
    simp [hne, htr, hanyt]

/-- C7 witness: with `allowedOrigins = ["example.com"]`, a missing origin
option fails with `MISSING_ORIGIN`. -/
theorem checkOrigin_contract_witness :
    checkOrigin [] cfgOriginEx = some ⟨"MISSING_ORIGIN", none⟩ := by
  exact checkOrigin_contract.1 [] cfgOriginEx ["example.com"] rfl (by decide) rfl

/-- C5: the target file path is the placeholder-resolved path template with
one trailing separator stripped, joined by `/` to the placeholder-resolved
filename template — the unique entry identifier when none is configured —
followed by `.` and the format's extension (`json`↦`json`,
`yaml`/`yml`↦`yml`, `frontmatter`↦`md`); concretely, the template
`posts/{options.parent}/{@id}` with `options.parent = "123"` and entry id
`abc` yields `posts/123/abc.<ext>` for each format. -/
theorem getNewFilePath_contract :
    (getExtensionForFormat "json" = some "json"
      ∧ getExtensionForFormat "yaml" = some "yml"
      ∧ getExtensionForFormat "yml" = some "yml"
      ∧ getExtensionForFormat "frontmatter" = some "md")
    ∧ (∀ now uid cfg opts data ext, cfg.filename = none →
        getExtensionForFormat (cfg.format.getD "") = some ext →
        getNewFilePath now uid cfg opts data
          = stripTrailingSlash (resolvePlaceholders now uid ⟨data, opts⟩ (cfg.path.getD ""))
            ++ "/" ++ uid ++ "." ++ ext)
    ∧ (∀ now uid cfg opts data f ext, cfg.filename = some f → f ≠ "" →
        getExtensionForFormat (cfg.format.getD "") = some ext →
        getNewFilePath now uid cfg opts data
          = stripTrailingSlash (resolvePlaceholders now uid ⟨data, opts⟩ (cfg.path.getD ""))
            ++ "/" ++ resolvePlaceholders now uid ⟨data, opts⟩ f ++ "." ++ ext)
    ∧ (∀ p ∈ ([("json", "json"), ("yaml", "yml"), ("frontmatter", "md")] :
          List (String × String)),
        getNewFilePath 0 "abc" (cfgPathEx p.1) [("parent", "123")] []
          = "posts/123/abc." ++ p.2)
    ∧ getNewFilePath 0 "abc" cfgPathSlashEx [] [] = "posts/abc.json" := by
  refine ⟨⟨rfl, rfl, rfl, rfl⟩, ?_, ?_, by decide, by rfl⟩
  · intro now uid cfg opts data ext hfn hext
    unfold getNewFilePath
    rw [hfn, hext]
    rfl
  · intro now uid cfg opts data f ext hfn hne hext
    unfold getNewFilePath
    rw [hfn, hext]
    simp [hne]

/-- C5 witness: the default-filename law at a concrete configuration — a
trailing-slash path template resolves to `posts/abc.json`. -/
theorem getNewFilePath_contract_witness :
    getNewFilePath 0 "abc" cfgPathSlashEx [] []
      = stripTrailingSlash (resolvePlaceholders 0 "abc" ⟨[], []⟩ (cfgPathSlashEx.path.getD ""))
        ++ "/" ++ "abc" ++ "." ++ "json" := by
  exact getNewFilePath_contract.2.1 0 "abc" cfgPathSlashEx [] [] "json" rfl rfl

/-- C6: with spam checking enabled (and the config stage passing), a
spam verdict fails the pipeline with `IS_SPAM` and no gateway effect — no
file write, branch creation or review request — is ever issued; a
classifier transport error likewise propagates with no effect issued. -/
theorem processEntry_spam_short_circuit (env : Env) (cfg : SiteConfig)
    (paramBranch : String) (fields : Fields) (opts : OptMap)
    (hval : validateConfig opts (some cfg) = none)
    (hbr : cfg.branch = some paramBranch)
    (hak : cfg.akismetEnabled = true) :
    (env.spamVerdict = .ok true →
      processEntry env (some cfg) paramBranch fields opts = (.error .isSpam, []))
    ∧ (∀ msg, env.spamVerdict = .error msg →
      processEntry env (some cfg) paramBranch fields opts
        = (.error (.spamTransport msg), [])) := by
  constructor
  · intro hs
    simp [processEntry, hval, hbr, hak, hs]
  · intro msg hs
    simp [processEntry, hval, hbr, hak, hs]

/-- C6 witness: a concrete enabled-spam configuration — the spam verdict
yields `IS_SPAM` with no effects, the transport error propagates with no
effects. -/
theorem processEntry_spam_short_circuit_witness :
    processEntry envSpamEx (some cfgSpamEx) "master" [("name", JValue.str "n")] []
      = (.error .isSpam, [])
    ∧ processEntry envSpamErrEx (some cfgSpamEx) "master" [("name", JValue.str "n")] []
      = (.error (.spamTransport "transport"), []) :=
  ⟨(processEntry_spam_short_circuit envSpamEx cfgSpamEx "master"
      [("name", JValue.str "n")] [] rfl rfl rfl).1 rfl,
   (processEntry_spam_short_circuit envSpamErrEx cfgSpamEx "master"
      [("name", JValue.str "n")] [] rfl rfl rfl).2 "transport" rfl⟩

theorem lookupField_append (a b : Fields) (k : String) :
    lookupField (a ++ b) k
      = match lookupField a k with
        | some v => some v
        | none => lookupField b k := by
  induction a with
  | nil => simp [lookupField]
  | cons p rest ih =>
    obtain ⟨x, y⟩ := p
    by_cases hx : x = k
    · simp [List.cons_append, lookupField_cons, hx]
    · simp only [List.cons_append, lookupField_cons, if_neg hx]
      exact ih

theorem lookupField_map_assign (target source : Fields) (k : String) :
    lookupField (target.map (fun p =>
      match lookupField source p.1 with
      | some v => (p.1, v)
      | none => p)) k
      = match lookupField target k with
        | some w =>
          match lookupField source k with
          | some v => some v
          | none => some w
        | none => none := by
  induction target with
  | nil => simp [lookupField]
  | cons p rest ih =>
    obtain ⟨x, y⟩ := p
    by_cases hx : x = k
    · subst hx
      cases hs : lookupField source x <;>
        simp [List.map_cons, lookupField_cons, hs]
    · cases hs : lookupField source x <;>
        simp only [List.map_cons, hs, lookupField_cons, if_neg hx] <;>
        exact ih

theorem lookupField_filter_keep (source : Fields) (q : String × JValue → Bool) (k : String)
    (h : ∀ v, q (k, v) = true) :
    lookupField (source.filter q) k = lookupField source k := by
  induction source with
  | nil => rfl
  | cons p rest ih =>
    obtain ⟨x, y⟩ := p
    by_cases hx : x = k
    · subst hx
      rw [List.filter_cons, if_pos (by rw [h y])]
      simp [lookupField_cons]
    · rw [List.filter_cons]
      cases hq : q (x, y)
      · rw [if_neg (by simp [hq]), ih, lookupField_cons, if_neg hx]
      · rw [if_pos (by simp [hq]), lookupField_cons, if_neg hx, ih,
          lookupField_cons, if_neg hx]

theorem lookupField_objectAssign_of_target_none (target source : Fields) (k : String)
    (h : lookupField target k = none) :
    lookupField (objectAssign target source) k = lookupField source k := by
  unfold objectAssign
  rw [lookupField_append, lookupField_map_assign, h]
  exact lookupField_filter_keep source _ k (fun v => by rw [h]; rfl)

theorem lookupField_objectAssign_of_target_some (target source : Fields) (k : String)
    (w : JValue) (h : lookupField target k = some w) (hs : lookupField source k = none) :
    lookupField (objectAssign target source) k = some w := by
  unfold objectAssign
  rw [lookupField_append, lookupField_map_assign, h, hs]

/-- C8 (amended): the mapping handed to the serializer contains `_id` equal
to the unique entry identifier generated at pipeline start, and `_parent`
equal to `options.parent` exactly when that option is truthy — provided
the processed submission does not itself carry an `_id`/`_parent` key,
because `Object.assign(internalFields, data)` lets the submission's own
values override the injected ones. -/
theorem serializerInput_internal_fields (env : Env) (opts : OptMap) (cfg : SiteConfig)
    (trimmed : Fields)
    (hid : lookupField (processedFields env opts cfg trimmed) "_id" = none)
    (hpar : lookupField (processedFields env opts cfg trimmed) "_parent" = none) :
    lookupField (serializerInput env opts cfg trimmed) "_id" = some (JValue.str env.uid)
    ∧ (optTruthy opts "parent" = true →
        lookupField (serializerInput env opts cfg trimmed) "_parent"
          = some (JValue.str ((optGet opts "parent").getD "")))
    ∧ (optTruthy opts "parent" = false →
        lookupField (serializerInput env opts cfg trimmed) "_parent" = none) := by
  refine ⟨?_, ?_, ?_⟩
  · unfold serializerInput applyInternalFields
    cases hpt : optTruthy opts "parent" <;>
      exact lookupField_objectAssign_of_target_some _ _ _ _
        (by simp [hpt, lookupField_cons]) hid
  · intro hpt
    unfold serializerInput applyInternalFields
    exact lookupField_objectAssign_of_target_some _ _ _ _
      (by simp [hpt, lookupField_cons]) hpar
  · intro hpt
    unfold serializerInput applyInternalFields
    simp only [hpt, Bool.false_eq_true, if_false, List.append_nil]
    have h0 : lookupField [("_id", JValue.str env.uid)] "_parent" = none := by
      rw [lookupField_cons]
      simp [lookupField]
    rw [lookupField_objectAssign_of_target_none _ _ _ h0]
    exact hpar

/-- C8 witness: with `options.parent = "123"` and a benign submission, the
serializer input carries `_id = abc` (the uid) and `_parent = 123`. -/
theorem serializerInput_internal_fields_witness :
    lookupField (serializerInput envHamEx [("parent", "123")] cfgJsonEx
        (trimFields [("t", JValue.str "hi")])) "_id" = some (JValue.str "abc")
    ∧ lookupField (serializerInput envHamEx [("parent", "123")] cfgJsonEx
        (trimFields [("t", JValue.str "hi")])) "_parent" = some (JValue.str "123") := by
  have h := serializerInput_internal_fields envHamEx [("parent", "123")] cfgJsonEx
    (trimFields [("t", JValue.str "hi")]) (by rfl) (by rfl)
  exact ⟨h.1, h.2.1 rfl⟩

/-- C8 counterexample to the claim as stated: a submission field literally
named `_id` with the tolerated empty value reaches serialization — the
pipeline succeeds — yet the mapping passed to the serializer carries the
submitted empty string, not the generated uid, because `Object.assign`
gives the submission precedence. -/
theorem serializerInput_id_overridden_counterexample :
    processEntry envHamEx (some cfgJsonEx) "master" [("_id", JValue.str "")] []
      = (.ok ⟨[("_id", JValue.str "")], none⟩,
         [Effect.writeFile "p/abc.json" "\x7b\"_id\":\"\"\x7d" "master" "c"])
    ∧ envHamEx.uid = "abc"
    ∧ lookupField (serializerInput envHamEx [] cfgJsonEx
        (trimFields [("_id", JValue.str "")])) "_id" ≠ some (JValue.str envHamEx.uid) :=
  ⟨rfl, rfl, by decide⟩

/-- C10 (amended): a successful run returns exactly the processed caller
mapping — trimmed, generated, transformed — with no internal-field
injection applied to it: the reserved keys appear in the result only if
the processed mapping itself contains them, and the frontmatter content
field (deleted from the serialized mapping) is still present in the
returned fields. -/
theorem processEntry_result_fields (env : Env) (cfg : SiteConfig)
    (paramBranch : String) (fields : Fields) (opts : OptMap)
    (r : EntryResult) (effs : List Effect)
    (h : processEntry env (some cfg) paramBranch fields opts = (.ok r, effs)) :
    r.fields = processedFields env opts cfg (trimFields fields)
    ∧ (lookupField (processedFields env opts cfg (trimFields fields)) "_id" = none →
        lookupField r.fields "_id" = none)
    ∧ (lookupField (processedFields env opts cfg (trimFields fields)) "_parent" = none →
        lookupField r.fields "_parent" = none)
    ∧ (∀ c, frontmatterContentField cfg.transforms = some c →
        lookupField r.fields c
          = lookupField (processedFields env opts cfg (trimFields fields)) c) := by
  have hr : r.fields = processedFields env opts cfg (trimFields fields) := by
    simp only [processEntry] at h
    split at h
    · simp at h
    · split at h
      · simp at h
      · split at h
        · simp at h
        · simp at h
        · split at h
          · simp at h
          · rename_i trimmed heq
            split at h
            · simp at h
            · simp only [Prod.mk.injEq, Except.ok.injEq] at h
              obtain ⟨h1, -⟩ := h
              have ht : trimFields fields = trimmed := congrArg Prod.snd heq
              rw [← h1, ← ht]
  exact ⟨hr, fun hx => hr ▸ hx, fun hx => hr ▸ hx, fun c _ => by rw [hr]⟩

/-- C10 witness: a successful frontmatter run returns the processed caller
mapping — `title` and the content field `body` both present, no `_id`. -/
theorem processEntry_result_fields_witness :
    (⟨[("title", JValue.str "T"), ("body", JValue.str "Hello")], none⟩ : EntryResult).fields
      = processedFields envFmEx [] cfgFmEx
          (trimFields [("title", JValue.str "T"), ("body", JValue.str "Hello")]) :=
  (processEntry_result_fields envFmEx cfgFmEx "master"
    [("title", JValue.str "T"), ("body", JValue.str "Hello")] []
    ⟨[("title", JValue.str "T"), ("body", JValue.str "Hello")], none⟩
    [Effect.writeFile "p/abc.md" "---\n_id: abc\ntitle: T\n---\nHello\n" "master" "c"]
    (by rfl)).1

/-- C10 counterexample to the claim as stated: a submission field literally
named `_id` (tolerated because empty) survives into the success result, so
`_id` can appear in the returned fields. -/
theorem result_fields_contain_id_counterexample :
    processEntry envHamEx (some cfgJsonEx) "master" [("_id", JValue.str "")] []
      = (.ok ⟨[("_id", JValue.str "")], none⟩,
         [Effect.writeFile "p/abc.json" "\x7b\"_id\":\"\"\x7d" "master" "c"])
    ∧ lookupField ([("_id", JValue.str "")] : Fields) "_id" ≠ none :=
  ⟨rfl, by decide⟩

end Staticman
